import Mathlib

set_option maxRecDepth 8000

/-!
Shallow embedding of `src/main.py` (astrbot_plugin_fetch_summary).

Python functions are modelled as executable Lean functions:
* `_extract_urls`              → `FetchSummary.extractUrls`
* the compiled `url_pattern`   → `FetchSummary.urlRE` + `FetchSummary.searchUrl`
* `_is_valid_url` / `urlparse` → `FetchSummary.isValidUrl`
* `_is_summary_message`        → `FetchSummary.isSummaryMessage`
* `_fetch_summary_from_service`→ `FetchSummary.fetchSummaryFromService`
* `json.loads`                 → `FetchSummary.jsonLoads`
* `_postprocess_with_llm`      → `FetchSummary.postprocessWithLlm`
* `_get_url_summary`           → `FetchSummary.getUrlSummaryTrace` (instrumented
  with the number of upstream calls and the list of back-off sleeps)
* `on_message`                 → `FetchSummary.onMessage`

Machine-level effects (network, the event loop) are abstracted by passing the
outcome of each upstream call explicitly; fallible Python code is modelled with
`Except`/`Option`.  The configuration field `summary_prefix` is called
`prefixStr` here.
-/

namespace FetchSummary

/-! ### ASCII character classes -/

def isAsciiUpper (c : Char) : Bool := 65 ≤ c.toNat && c.toNat ≤ 90

def isAsciiLower (c : Char) : Bool := 97 ≤ c.toNat && c.toNat ≤ 122

def isAsciiAlpha (c : Char) : Bool := isAsciiUpper c || isAsciiLower c

def isAsciiDigit (c : Char) : Bool := 48 ≤ c.toNat && c.toNat ≤ 57

def isAsciiAlphaNum (c : Char) : Bool := isAsciiAlpha c || isAsciiDigit c

def lowerChar (c : Char) : Char :=
  if isAsciiUpper c then Char.ofNat (c.toNat + 32) else c

/-- Python's `str.isspace` / `re` module `\s` character set (Unicode mode). -/
def isPySpace (c : Char) : Bool :=
  let n := c.toNat
  n = 32 || (9 ≤ n && n ≤ 13) || (28 ≤ n && n ≤ 31) || n = 133 || n = 160 ||
  n = 0x1680 || (0x2000 ≤ n && n ≤ 0x200a) || n = 0x2028 || n = 0x2029 ||
  n = 0x202f || n = 0x205f || n = 0x3000

/-- The double-quote character. -/
def quoteChar : Char := Char.ofNat 34

/-- The apostrophe (single-quote) character. -/
def aposChar : Char := Char.ofNat 39

/-! ### Python string helpers -/

/-- Python's substring test `pat in s`, on lists of characters.
`strHas [] cs = true` because the empty string is a substring of anything. -/
def strHas (pat : List Char) : List Char → Bool
  | [] => pat.isEmpty
  | c :: t => pat.isPrefixOf (c :: t) || strHas pat t

/-- Python's `pat in s` on strings. -/
def pyIn (pat s : String) : Bool := strHas pat.data s.data

/-- Python's `str.strip()` (no argument: strips `str.isspace` characters). -/
def pyStripL (cs : List Char) : List Char := cs.dropWhile isPySpace

def pyStripChars (cs : List Char) : List Char :=
  ((cs.dropWhile isPySpace).reverse.dropWhile isPySpace).reverse

def pyStrip (s : String) : String := String.mk (pyStripChars s.data)

/-- Python's `str.replace pat rep` (left-to-right, non-overlapping), with fuel;
the fuel is always at least `s.length + 1`, which suffices because every step
consumes at least one input character. -/
def replaceAllL (pat rep : List Char) : Nat → List Char → List Char
  | 0, s => s
  | _, [] => []
  | Nat.succ f, c :: rest =>
    if pat.isPrefixOf (c :: rest) then
      rep ++ replaceAllL pat rep f ((c :: rest).drop pat.length)
    else
      c :: replaceAllL pat rep f rest

/-- Python's `s.replace(pat, rep)`.  (The plugin only calls it with the
non-empty pattern `{summary}`; for an empty pattern we return `s` unchanged.) -/
def pyReplace (s pat rep : String) : String :=
  if pat.data.isEmpty then s
  else String.mk (replaceAllL pat.data rep.data (s.data.length + 1) s.data)

/-! ### Regex engine

A small backtracking matcher whose alternative ordering is that of CPython's
`re` module (greedy quantifiers try the longer continuation first).  It is only
used to run the plugin's compiled `url_pattern`. -/

inductive RE where
  | one (p : Char → Bool)
  | seq (a b : RE)
  | alt (a b : RE)
  | star (a : RE)
  | eps

/-- CPS backtracking matcher.  `k` receives the end position of a candidate
match of `r` starting at `pos`; the first success in Python's backtracking
order wins.  Fuel bounds the call depth. -/
def reMatch : Nat → RE → List Char → Nat → (Nat → Option Nat) → Option Nat
  | 0, _, _, _, _ => none
  | Nat.succ _, .one p, cs, pos, k =>
    match cs.get? pos with
    | some c => if p c then k (pos + 1) else none
    | none => none
  | Nat.succ f, .seq a b, cs, pos, k =>
    reMatch f a cs pos (fun q => reMatch f b cs q k)
  | Nat.succ f, .alt a b, cs, pos, k =>
    match reMatch f a cs pos k with
    | some e => some e
    | none => reMatch f b cs pos k
  | Nat.succ f, .star a, cs, pos, k =>
    match reMatch f a cs pos
        (fun q => if pos < q then reMatch f (.star a) cs q k else none) with
    | some e => some e
    | none => k pos
  | Nat.succ _, .eps, _, pos, k => k pos

def reLit (c : Char) : RE := .one (fun x => x = c)

/-- Case-insensitive literal (the pattern is compiled with `re.IGNORECASE`). -/
def reCI (c : Char) : RE := .one (fun x => lowerChar x = c)

def reOpt (r : RE) : RE := .alt r .eps

def rePlus (r : RE) : RE := .seq r (.star r)

/-- The boundary character class `[A-Za-z0-9._~%!$&'*+,;=:@/?#-]` used in the
pattern's lookbehind and lookahead. -/
def isUrlBoundaryChar (c : Char) : Bool :=
  isAsciiAlphaNum c ||
  ['.', '_', '~', '%', '!', '$', '&', '*', '+', ',', ';', '=', ':', '@', '/',
   '?', '#', '-'].contains c ||
  c = aposChar

/-- Domain-label characters `[A-Za-z0-9-]`. -/
def isDomainChar (c : Char) : Bool := isAsciiAlphaNum c || c = '-'

/-- Path characters `[^\s<>"\]]`. -/
def isPathChar (c : Char) : Bool :=
  !(isPySpace c || c = '<' || c = '>' || c = quoteChar || c = ']')

/-- `https?://` (case-insensitive). -/
def schemeRE : RE :=
  .seq (reCI 'h') (.seq (reCI 't') (.seq (reCI 't') (.seq (reCI 'p')
    (.seq (reOpt (reCI 's')) (.seq (reLit ':') (.seq (reLit '/') (reLit '/')))))))

/-- `(?:[A-Za-z0-9-]+\.)+[A-Za-z0-9-]+`. -/
def domainRE : RE :=
  .seq (rePlus (.seq (rePlus (.one isDomainChar)) (reLit '.')))
       (rePlus (.one isDomainChar))

/-- `(?::\d{2,5})?`. -/
def portRE : RE :=
  let d := RE.one isAsciiDigit
  reOpt (.seq (reLit ':')
    (.seq d (.seq d (reOpt (.seq d (reOpt (.seq d (reOpt d))))))))

/-- `(?:/[^\s<>"\]]*)?`. -/
def pathRE : RE := reOpt (.seq (reLit '/') (.star (.one isPathChar)))

/-- The body of `url_pattern` (the lookbehind and lookahead are handled by
`tryMatchAt`). -/
def urlRE : RE := .seq schemeRE (.seq domainRE (.seq portRE pathRE))

def reFuel (cs : List Char) : Nat := 200 * (cs.length + 4)

/-- Attempt the full pattern at position `pos`: the lookbehind
`(?<![boundary])`, the body, then the lookahead `(?![boundary])`.  Returns the
end position of the match. -/
def tryMatchAt (cs : List Char) (pos : Nat) : Option Nat :=
  let behindOk : Bool :=
    match pos with
    | 0 => true
    | Nat.succ p =>
      match cs.get? p with
      | some c => !isUrlBoundaryChar c
      | none => true
  if behindOk then
    reMatch (reFuel cs) urlRE cs pos (fun q =>
      match cs.get? q with
      | some c => if isUrlBoundaryChar c then none else some q
      | none => some q)
  else none

/-- `re.search`: scan start positions left to right, first match wins. -/
def searchUrlGo (cs : List Char) : Nat → Nat → Option (Nat × Nat)
  | _, 0 => none
  | pos, Nat.succ r =>
    match tryMatchAt cs pos with
    | some e => some (pos, e)
    | none => searchUrlGo cs (pos + 1) r

def searchUrl (cs : List Char) : Option (Nat × Nat) :=
  searchUrlGo cs 0 (cs.length + 1)

/-- `self.url_pattern.search(text)` followed by `match.group(0)`. -/
def rawUrlMatch (cs : List Char) : Option (List Char) :=
  match searchUrl cs with
  | none => none
  | some (s, e) => some ((cs.drop s).take (e - s))

/-! ### URL cleanup (`_extract_urls`) and validation (`_is_valid_url`) -/

/-- The trailing-punctuation set of `url.rstrip('.,;:!?，。！？：；、)]】》’”\'"')`. -/
def trailingPunct : List Char :=
  ['.', ',', ';', ':', '!', '?', '，', '。', '！', '？', '：', '；', '、',
   ')', ']', '】', '》', '’', '”'] ++ [aposChar, quoteChar]

/-- `url.rstrip(trailing punctuation)`. -/
def rstripPunct (cs : List Char) : List Char :=
  (cs.reverse.dropWhile (fun c => trailingPunct.contains c)).reverse

/-- One iteration of the parenthesis-balancing loop:
`lack = url.count(right) - url.count(left); if lack > 0: url = url[:-lack]`. -/
def balanceOnce (l r : Char) (cs : List Char) : List Char :=
  let cl := cs.count l
  let cr := cs.count r
  if cl < cr then cs.take (cs.length - (cr - cl)) else cs

/-- The loop `for left, right in (('(', ')'), ('（', '）'))`. -/
def balanceParens (cs : List Char) : List Char :=
  balanceOnce '（' '）' (balanceOnce '(' ')' cs)

/-- `url.lstrip('<([（【《')`. -/
def leadingWrappers : List Char := ['<', '(', '[', '（', '【', '《']

def lstripWrappers (cs : List Char) : List Char :=
  cs.dropWhile (fun c => leadingWrappers.contains c)

/-- The cleanup pipeline applied to `match.group(0)` in `_extract_urls`. -/
def cleanUrl (cs : List Char) : List Char :=
  lstripWrappers (balanceParens (rstripPunct cs))

/-- Scheme characters accepted by `urllib.parse` after the initial letter. -/
def isSchemeChar (c : Char) : Bool :=
  isAsciiAlphaNum c || c = '+' || c = '-' || c = '.'

/-- Index of the first `':'`, if any. -/
def colonIdx : List Char → Option Nat
  | [] => none
  | c :: t =>
    if c = ':' then some 0
    else match colonIdx t with
      | some i => some (i + 1)
      | none => none

/-- `urllib.parse.urlsplit`, restricted to the `(scheme, netloc)` components
that `_is_valid_url` inspects.  `none` models a raised `ValueError`
(mismatched IPv6 brackets in the authority). -/
def urlparseSN (url : String) : Option (String × String) :=
  let cs0 := ((url.data.dropWhile (fun c => c.toNat ≤ 32)).reverse.dropWhile
    (fun c => c.toNat ≤ 32)).reverse
  let cs := cs0.filter (fun c => !(c = '\t' || c = '\r' || c = '\n'))
  let schemeRest : List Char × List Char :=
    match colonIdx cs with
    | some i =>
      if 0 < i ∧ (cs.headD ' ' |> isAsciiAlpha) ∧
          ((cs.take i).drop 1).all isSchemeChar then
        ((cs.take i).map lowerChar, cs.drop (i + 1))
      else ([], cs)
    | none => ([], cs)
  let netloc : List Char :=
    if ['/', '/'].isPrefixOf schemeRest.2 then
      (schemeRest.2.drop 2).takeWhile (fun c => !(c = '/' || c = '?' || c = '#'))
    else []
  if (netloc.contains '[' && !netloc.contains ']') ||
     (netloc.contains ']' && !netloc.contains '[') then none
  else some (String.mk schemeRest.1, String.mk netloc)

/-- `_is_valid_url`: `bool(result.scheme and result.netloc)`, with any
`urlparse` exception mapped to `False`. -/
def isValidUrl (url : String) : Bool :=
  match urlparseSN url with
  | none => false
  | some (sch, nl) => sch ≠ "" && nl ≠ ""

/-- `_extract_urls`. -/
def extractUrls (text : String) : List String :=
  match rawUrlMatch text.data with
  | none => []
  | some raw =>
    let u := String.mk (cleanUrl raw)
    if isValidUrl u then [u] else []

/-! ### JSON values and `json.loads`

Python's `json.loads` (strict mode) as an executable parser.  Numbers are kept
as decimal mantissa/exponent pairs (the plugin only ever tests values for
string-ness and truthiness, for which this is faithful: a number is falsy iff
its mantissa is zero). -/

inductive Json where
  | null
  | bool (b : Bool)
  | num (mant : Int) (exp10 : Int)
  | nan
  | inf (neg : Bool)
  | str (s : String)
  | arr (xs : List Json)
  | obj (fields : List (String × Json))

def isJsonWs (c : Char) : Bool := c = ' ' || c = '\t' || c = '\n' || c = '\r'

def skipWs (cs : List Char) : List Char := cs.dropWhile isJsonWs

def hexVal (c : Char) : Option Nat :=
  if 48 ≤ c.toNat ∧ c.toNat ≤ 57 then some (c.toNat - 48)
  else if 97 ≤ c.toNat ∧ c.toNat ≤ 102 then some (c.toNat - 87)
  else if 65 ≤ c.toNat ∧ c.toNat ≤ 70 then some (c.toNat - 55)
  else none

/-- Decode a `\uXXXX` escape (the four hex digits).  Returns the code unit. -/
def hex4 (a b c d : Char) : Option Nat :=
  match hexVal a, hexVal b, hexVal c, hexVal d with
  | some x, some y, some z, some w => some (((x * 16 + y) * 16 + z) * 16 + w)
  | _, _, _, _ => none

/-- Parse a JSON string body (the opening quote already consumed); handles the
escape sequences of `json.py`, combining surrogate pairs.  Raw control
characters are rejected (strict mode). -/
def parseJStr : Nat → List Char → Option (List Char × List Char)
  | 0, _ => none
  | Nat.succ f, cs =>
    match cs with
    | [] => none
    | c :: rest =>
      if c = quoteChar then some ([], rest)
      else if c = '\\' then
        match rest with
        | [] => none
        | e :: rest2 =>
          if e = quoteChar then
            (parseJStr f rest2).map (fun (s, r) => (quoteChar :: s, r))
          else if e = '\\' then
            (parseJStr f rest2).map (fun (s, r) => ('\\' :: s, r))
          else if e = '/' then
            (parseJStr f rest2).map (fun (s, r) => ('/' :: s, r))
          else if e = 'b' then
            (parseJStr f rest2).map (fun (s, r) => (Char.ofNat 8 :: s, r))
          else if e = 'f' then
            (parseJStr f rest2).map (fun (s, r) => (Char.ofNat 12 :: s, r))
          else if e = 'n' then
            (parseJStr f rest2).map (fun (s, r) => ('\n' :: s, r))
          else if e = 'r' then
            (parseJStr f rest2).map (fun (s, r) => ('\r' :: s, r))
          else if e = 't' then
            (parseJStr f rest2).map (fun (s, r) => ('\t' :: s, r))
          else if e = 'u' then
            match rest2 with
            | a :: b2 :: c2 :: d2 :: rest3 =>
              match hex4 a b2 c2 d2 with
              | none => none
              | some u =>
                if 0xd800 ≤ u ∧ u ≤ 0xdbff then
                  match rest3 with
                  | '\\' :: 'u' :: a2 :: b3 :: c3 :: d3 :: rest4 =>
                    match hex4 a2 b3 c3 d3 with
                    | some v =>
                      if 0xdc00 ≤ v ∧ v ≤ 0xdfff then
                        (parseJStr f rest4).map (fun (s, r) =>
                          (Char.ofNat (0x10000 + (u - 0xd800) * 0x400 +
                            (v - 0xdc00)) :: s, r))
                      else
                        (parseJStr f rest3).map (fun (s, r) =>
                          (Char.ofNat u :: s, r))
                    | none =>
                      (parseJStr f rest3).map (fun (s, r) =>
                        (Char.ofNat u :: s, r))
                  | _ =>
                    (parseJStr f rest3).map (fun (s, r) =>
                      (Char.ofNat u :: s, r))
                else
                  (parseJStr f rest3).map (fun (s, r) => (Char.ofNat u :: s, r))
            | _ => none
          else none
      else if c.toNat < 32 then none
      else (parseJStr f rest).map (fun (s, r) => (c :: s, r))

def digitsToNat (ds : List Char) : Nat :=
  ds.foldl (fun a c => a * 10 + (c.toNat - 48)) 0

/-- The `NUMBER_RE` of `json.scanner`:
`(-?(?:0|[1-9]\d*))(\.\d+)?([eE][-+]?\d+)?`.  Returns the parsed number and
the rest of the input, or `none` when the regex does not match at this
position. -/
def parseNum (cs : List Char) : Option (Json × List Char) :=
  let signRest : Bool × List Char :=
    match cs with
    | '-' :: t => (true, t)
    | _ => (false, cs)
  match signRest.2 with
  | [] => none
  | c :: _ =>
    if !isAsciiDigit c then none
    else
      let intDigits : List Char :=
        if c = '0' then ['0'] else signRest.2.takeWhile isAsciiDigit
      let cs2 := signRest.2.drop intDigits.length
      let fracDigits : List Char :=
        match cs2 with
        | '.' :: t => if (t.headD ' ' |> isAsciiDigit) then t.takeWhile isAsciiDigit else []
        | _ => []
      let cs3 := if fracDigits.isEmpty then cs2 else cs2.drop (fracDigits.length + 1)
      let expPart : Option (Int × Nat) :=
        match cs3 with
        | e :: t =>
          if e = 'e' ∨ e = 'E' then
            match t with
            | '+' :: t2 =>
              if (t2.headD ' ' |> isAsciiDigit) then
                some ((digitsToNat (t2.takeWhile isAsciiDigit) : Int),
                  (t2.takeWhile isAsciiDigit).length + 2)
              else none
            | '-' :: t2 =>
              if (t2.headD ' ' |> isAsciiDigit) then
                some (-(digitsToNat (t2.takeWhile isAsciiDigit) : Int),
                  (t2.takeWhile isAsciiDigit).length + 2)
              else none
            | _ =>
              if (t.headD ' ' |> isAsciiDigit) then
                some ((digitsToNat (t.takeWhile isAsciiDigit) : Int),
                  (t.takeWhile isAsciiDigit).length + 1)
              else none
          else none
        | [] => none
      let cs4 := match expPart with
        | some (_, n) => cs3.drop n
        | none => cs3
      let mantNat : Nat := digitsToNat (intDigits ++ fracDigits)
      let mant : Int := if signRest.1 then -(mantNat : Int) else (mantNat : Int)
      let e10 : Int := (match expPart with | some (v, _) => v | none => 0) -
        (fracDigits.length : Int)
      some (.num mant e10, cs4)

/-- The decoder's work items: a value at the head of the input, an object
body after `{`, the object-member loop, an array body after `[`, or the
array-element loop.  One type lets the recursion be structural on the fuel. -/
inductive PTask where
  | val (cs : List Char)
  | objBody (cs : List Char)
  | members (cs : List Char) (acc : List (String × Json))
  | arrBody (cs : List Char)
  | items (cs : List Char) (acc : List Json)

/-- The recursive core of the Python decoder (`scan_once` together with the
object/array loops; duplicate object keys are kept in parse order and lookups
take the last one, as `dict` assignment does). -/
def parseStep : Nat → PTask → Option (Json × List Char)
  | 0, _ => none
  | Nat.succ f, .val cs =>
    match cs with
    | [] => none
    | c :: rest =>
      if c = quoteChar then
        match parseJStr (rest.length + 1) rest with
        | some (s, r) => some (.str (String.mk s), r)
        | none => none
      else if c = Char.ofNat 0x7b then parseStep f (.objBody (skipWs rest))
      else if c = '[' then parseStep f (.arrBody (skipWs rest))
      else if c = 't' then
        if ['r', 'u', 'e'].isPrefixOf rest then some (.bool true, rest.drop 3)
        else none
      else if c = 'f' then
        if ['a', 'l', 's', 'e'].isPrefixOf rest then some (.bool false, rest.drop 4)
        else none
      else if c = 'n' then
        if ['u', 'l', 'l'].isPrefixOf rest then some (.null, rest.drop 3)
        else none
      else if c = 'N' then
        if ['a', 'N'].isPrefixOf rest then some (.nan, rest.drop 2)
        else none
      else if c = 'I' then
        if ['n', 'f', 'i', 'n', 'i', 't', 'y'].isPrefixOf rest then
          some (.inf false, rest.drop 7)
        else none
      else
        match parseNum cs with
        | some v => some v
        | none =>
          if c = '-' ∧ ['I', 'n', 'f', 'i', 'n', 'i', 't', 'y'].isPrefixOf rest then
            some (.inf true, rest.drop 8)
          else none
  | Nat.succ f, .objBody cs =>
    match cs with
    | [] => none
    | c :: rest =>
      if c = Char.ofNat 0x7d then some (.obj [], rest)
      else parseStep f (.members (c :: rest) [])
  | Nat.succ f, .members cs acc =>
    match cs with
    | [] => none
    | c :: rest =>
      if c ≠ quoteChar then none
      else
        match parseJStr (rest.length + 1) rest with
        | none => none
        | some (k, r1) =>
          match skipWs r1 with
          | ':' :: r3 =>
            match parseStep f (.val (skipWs r3)) with
            | none => none
            | some (v, r4) =>
              let acc2 := acc ++ [(String.mk k, v)]
              match skipWs r4 with
              | ',' :: r6 => parseStep f (.members (skipWs r6) acc2)
              | cc :: r6 =>
                if cc = Char.ofNat 0x7d then some (.obj acc2, r6) else none
              | [] => none
          | _ => none
  | Nat.succ f, .arrBody cs =>
    match cs with
    | [] => none
    | c :: rest =>
      if c = ']' then some (.arr [], rest)
      else parseStep f (.items (c :: rest) [])
  | Nat.succ f, .items cs acc =>
    match parseStep f (.val cs) with
    | none => none
    | some (v, r1) =>
      let acc2 := acc ++ [v]
      match skipWs r1 with
      | ',' :: r3 => parseStep f (.items (skipWs r3) acc2)
      | ']' :: r3 => some (.arr acc2, r3)
      | _ => none

/-- `scan_once` of the Python decoder: parse one JSON value at the head of the
input (no leading whitespace). -/
def parseVal (fuel : Nat) (cs : List Char) : Option (Json × List Char) :=
  parseStep fuel (.val cs)

/-- `json.loads`: parse one value, allow surrounding whitespace, and require
that the whole input is consumed; `none` models `json.JSONDecodeError`. -/
def jsonLoads (s : String) : Option Json :=
  let cs := skipWs s.data
  match parseVal (4 * cs.length + 16) cs with
  | some (v, rest) => if (skipWs rest).isEmpty then some v else none
  | none => none

/-- Python truthiness of a decoded JSON value (`not x`). -/
def pyFalsy : Json → Bool
  | .null => true
  | .bool b => !b
  | .num m _ => m == 0
  | .nan => false
  | .inf _ => false
  | .str s => s == ""
  | .arr xs => xs.isEmpty
  | .obj fs => fs.isEmpty

def isStrJson : Json → Bool
  | .str _ => true
  | _ => false

/-- `dict` lookup for decoded objects: the last binding of a key wins. -/
def jlookup (fs : List (String × Json)) (k : String) : Option Json :=
  fs.foldl (fun acc p => if p.1 = k then some p.2 else acc) none

/-! ### `_fetch_summary_from_service` -/

/-- The Python exceptions that can escape `_fetch_summary_from_service` or the
awaited request itself; `_get_url_summary` catches all of them. -/
inductive PyErr where
  | valueErr
  | attrErr
  | timeoutErr
  | netErr
deriving DecidableEq

/-- `summary_text = inner_data.get("summary"); if not summary_text or not
isinstance(summary_text, str): raise ValueError(...); return
summary_text.strip()` — the final lines of `_fetch_summary_from_service`
(a missing key gives `None`, which is falsy). -/
def summaryValStage (o : Option Json) : Except PyErr String :=
  match o with
  | none => .error .valueErr
  | some sv =>
    if pyFalsy sv then .error .valueErr
    else
      match sv with
      | .str t => .ok (pyStrip t)
      | _ => .error .valueErr

/-- `inner_data.get("summary")`: `AttributeError` when the decoded inner JSON
is not a dict. -/
def innerStage (inner : Json) : Except PyErr String :=
  match inner with
  | .obj ifs => summaryValStage (jlookup ifs ("summary"))
  | _ => .error .attrErr

/-- `inner_data = json.loads(body_text)` (a `JSONDecodeError` propagates, as
`ValueError`). -/
def innerLoadStage (o : Option Json) : Except PyErr String :=
  match o with
  | none => .error .valueErr
  | some inner => innerStage inner

/-- `if not body_text or not isinstance(body_text, str): raise ValueError`. -/
def bodyStage (bodyVal : Json) : Except PyErr String :=
  if pyFalsy bodyVal then .error .valueErr
  else
    match bodyVal with
    | .str s => innerLoadStage (jsonLoads s)
    | _ => .error .valueErr

/-- The result of `.get("body")` (missing gives `None`, which is falsy and
raises the `ValueError`). -/
def bodyLookupStage (o : Option Json) : Except PyErr String :=
  match o with
  | none => .error .valueErr
  | some bodyVal => bodyStage bodyVal

/-- `.get("body")` on the value of `outer_data.get("result", {})`:
`AttributeError` when that value is not a dict. -/
def resultStage (rv : Json) : Except PyErr String :=
  match rv with
  | .obj rfs => bodyLookupStage (jlookup rfs ("body"))
  | _ => .error .attrErr

/-- `outer_data.get("result", {})`: `AttributeError` when the decoded outer
JSON is not a dict. -/
def outerStage (outer : Json) : Except PyErr String :=
  match outer with
  | .obj fs => resultStage ((jlookup fs ("result")).getD (.obj []))
  | _ => .error .attrErr

/-- `outer_data = json.loads(raw_body)`, wrapped into
`ValueError("上游响应不是有效的 JSON")` on failure. -/
def loadStage (o : Option Json) : Except PyErr String :=
  match o with
  | none => .error .valueErr
  | some outer => outerStage outer

/-- `_fetch_summary_from_service`, as a function of the upstream HTTP response
(status code and raw body).  `.error` models a raised exception:
`valueErr` for the explicit `ValueError`s and `json.JSONDecodeError`,
`attrErr` for `.get` called on a non-dict.  The stages above follow the
source lines in order. -/
def fetchSummaryFromService (status : Nat) (rawBody : String) :
    Except PyErr String :=
  if status ≠ 200 then .error .valueErr
  else loadStage (jsonLoads rawBody)

/-! ### `_postprocess_with_llm` -/

def DEFAULT_LLM_PROMPT : String :=
  "请将以下摘要润色成自然的中文群聊用语，保持原意：\n\n{summary}"

def SYSTEM_PROMPT : String := "你是一位善于润色文本的助手，保持内容完整准确。"

/-- The injected text-completion capability.  `textChat prompt systemPrompt`
returns `.error` when the awaited call raises, `.ok none` when the response is
falsy or has no `completion_text`, and `.ok (some t)` when `completion_text`
is the string `t`. -/
structure ProviderModel where
  textChat : String → String → Except Unit (Option String)

/-- The ambient state `_postprocess_with_llm` reads: configuration keys and the
host context's provider registry. -/
structure LlmEnv where
  enablePost : Bool
  providerId : String
  providerById : String → Option ProviderModel
  usingProvider : Option ProviderModel
  promptTemplate : String

/-- `context.get_provider_by_id(provider_id) if provider_id else
context.get_using_provider()`. -/
def resolveProvider (env : LlmEnv) : Option ProviderModel :=
  if env.providerId ≠ "" then env.providerById env.providerId
  else env.usingProvider

/-- `self.config.get("llm_prompt_template") or DEFAULT_LLM_PROMPT`
(an unset or empty template is falsy). -/
def templateOf (env : LlmEnv) : String :=
  if env.promptTemplate = "" then DEFAULT_LLM_PROMPT else env.promptTemplate

/-- The prompt construction: `template.replace("{summary}", summary)`, and if
the placeholder is absent, `f"{prompt_template}\n\n{summary}"`. -/
def buildPrompt (template summary : String) : String :=
  if pyIn ("{summary}") template then pyReplace template ("{summary}") summary
  else template ++ "\n\n" ++ summary

/-- `_postprocess_with_llm`. -/
def postprocessWithLlm (env : LlmEnv) (summary : String) : String :=
  if !env.enablePost then summary
  else
    match resolveProvider env with
    | none => summary
    | some p =>
      match p.textChat (buildPrompt (templateOf env) summary) SYSTEM_PROMPT with
      | .error _ => summary
      | .ok none => summary
      | .ok (some t) =>
        if t = "" then summary
        else if pyStrip t = "" then summary
        else pyStrip t

/-! ### `_get_url_summary` (retry loop) -/

/-- Outcome of one awaited upstream request: an HTTP response, an
`asyncio.TimeoutError`, or any other network exception. -/
inductive ServiceCall where
  | responds (status : Nat) (body : String)
  | timeoutCall
  | failCall

def serviceResult : ServiceCall → Except PyErr String
  | .responds st b => fetchSummaryFromService st b
  | .timeoutCall => .error .timeoutErr
  | .failCall => .error .netErr

/-- Observable trace of one `_get_url_summary` run: the returned value, the
number of upstream calls made, and the list of back-off sleep durations in
seconds, in order. -/
structure FetchTrace where
  result : Option String
  calls : Nat
  sleeps : List Nat
deriving DecidableEq

/-- The body of `for attempt in range(max_retries)`, from attempt `attempt`
with `remaining` iterations left.  `post` is `_postprocess_with_llm` with its
environment fixed; `env i` is the outcome of the `i`-th upstream request. -/
def fetchLoop (post : String → String) (env : Nat → ServiceCall)
    (maxRetries : Nat) : Nat → Nat → FetchTrace
  | _, 0 => ⟨none, 0, []⟩
  | attempt, Nat.succ r =>
    match serviceResult (env attempt) with
    | .ok content =>
      if content = "" then ⟨none, 1, []⟩
      else ⟨some (post content), 1, []⟩
    | .error _ =>
      let rest := fetchLoop post env maxRetries (attempt + 1) r
      if attempt < maxRetries - 1 then
        ⟨rest.result, rest.calls + 1, 2 ^ attempt :: rest.sleeps⟩
      else
        ⟨rest.result, rest.calls + 1, rest.sleeps⟩

/-- `_get_url_summary`, instrumented. -/
def getUrlSummaryTrace (post : String → String) (env : Nat → ServiceCall)
    (maxRetries : Nat) : FetchTrace :=
  fetchLoop post env maxRetries 0 maxRetries

/-- The value `_get_url_summary` returns to its caller. -/
def getUrlSummary (post : String → String) (env : Nat → ServiceCall)
    (maxRetries : Nat) : Option String :=
  (getUrlSummaryTrace post env maxRetries).result

/-! ### `_is_summary_message` and `on_message` -/

/-- `_is_summary_message`: `any(prefix and prefix in text for prefix in
[self.summary_prefix, "📝内容摘要：", "内容摘要："])`. -/
def isSummaryMessage (prefixStr text : String) : Bool :=
  [prefixStr, "📝内容摘要：", "内容摘要："].any fun p => p ≠ "" && pyIn p text

/-- Message components that matter to the forward/reply gate. -/
inductive MsgComp where
  | fwd
  | reply
  | plainComp

def isFwdOrReply : MsgComp → Bool
  | .fwd => true
  | .reply => true
  | .plainComp => false

/-- The inputs `on_message` reads: the event, the configuration, and
`_get_url_summary` abstracted as `summarize` (it is awaited once per URL; a
`none` also covers an exception caught by the per-URL `try`). -/
structure MessageEnv where
  senderId : String
  selfId : String
  comps : List MsgComp
  enableSummary : Bool
  groupId : String
  blacklistGroups : List String
  messageStr : String
  prefixStr : String
  triggerKeywords : List String
  blacklistKeywords : List String
  summarize : String → Option String

/-- `"\n".join`. -/
def joinLines : List String → String
  | [] => ""
  | [x] => x
  | x :: y :: t => x ++ "\n" ++ joinLines (y :: t)

/-- `parts = [url, summary]; if prefix: parts.insert(0, prefix);
"\n".join(parts)`. -/
def formatOutput (prefixStr url summary : String) : String :=
  joinLines (if prefixStr ≠ "" then [prefixStr, url, summary] else [url, summary])

/-- `on_message`: the list of emitted plain-text results, in order. -/
def onMessage (env : MessageEnv) : List String :=
  if env.senderId = env.selfId then []
  else if env.comps.any isFwdOrReply then []
  else if !env.enableSummary then []
  else if env.groupId ≠ "" ∧
      env.blacklistGroups.any (fun kw => pyIn kw env.groupId) then []
  else if env.messageStr = "" then []
  else if isSummaryMessage env.prefixStr env.messageStr then []
  else if !env.triggerKeywords.isEmpty ∧
      !(env.triggerKeywords.any fun k => pyIn k env.messageStr) then []
  else
    (extractUrls env.messageStr).filterMap fun url =>
      if env.blacklistKeywords.any (fun k => pyIn k url) then none
      else
        match env.summarize url with
        | none => none
        | some s => if s = "" then none else some (formatOutput env.prefixStr url s)

/-! ### Translate-if-needed mode (spec-modelled) -/

/-- Detection of CJK ideographs in the common Chinese block. -/
def hasChineseChar (s : String) : Bool :=
  s.data.any fun c => 0x4e00 ≤ c.toNat && c.toNat ≤ 0x9fff

/-- Modelled from the spec: the fixed translation instruction of the
translate-if-needed mode (its exact wording is not in `src/`). -/
def TRANSLATE_INSTRUCTION : String := "请将以下内容翻译成中文：\n\n"

/-- Modelled from the spec: configuration and injected capability of the
translate-if-needed refinement mode; this pipeline variant of the repository
is not under `src/`. -/
structure TranslateEnv where
  enableTranslation : Bool
  capability : Option (String → Except Unit (Option String))

/-- Modelled from the spec: the translate-if-needed stage (`§4.4`): if enabled
and the summary has no common-block Chinese ideograph, send it through the
injected capability with the fixed translation instruction; otherwise return
it unchanged.  On failure or empty result, return the original summary.  The
second component counts capability invocations. -/
def translateIfNeeded (env : TranslateEnv) (summary : String) : String × Nat :=
  if !env.enableTranslation then (summary, 0)
  else if hasChineseChar summary then (summary, 0)
  else
    match env.capability with
    | none => (summary, 0)
    | some cap =>
      match cap (TRANSLATE_INSTRUCTION ++ summary) with
      | .error _ => (summary, 1)
      | .ok none => (summary, 1)
      | .ok (some t) => if pyStrip t = "" then (summary, 1) else (pyStrip t, 1)

/-! ### Derived accessors and concrete fixtures used by the statements -/

/-- The `result.body` field of a decoded outer response, following the
navigation `outer_data.get("result", {}).get("body")` (present only when both
levels are objects). -/
def resultBodyOpt (v : Json) : Option Json :=
  match v with
  | .obj fs =>
    match (jlookup fs ("result")).getD (.obj []) with
    | .obj rfs => jlookup rfs ("body")
    | _ => none
  | _ => none

/-- The `summary` field of a decoded inner body. -/
def summaryOpt (v : Json) : Option Json :=
  match v with
  | .obj fs => jlookup fs ("summary")
  | _ => none

/-- The parse-shape violations listed by the spec for a 2xx response body:
outer body not valid JSON; `result.body` missing or not a string; inner JSON
not valid; `summary` missing, empty, or not a string. -/
def ParseShapeViolation (raw : String) : Prop :=
  jsonLoads raw = none ∨
  (∃ outer, jsonLoads raw = some outer ∧
    (resultBodyOpt outer = none ∨
     ∃ v, resultBodyOpt outer = some v ∧ isStrJson v = false)) ∨
  (∃ outer s, jsonLoads raw = some outer ∧
    resultBodyOpt outer = some (.str s) ∧ jsonLoads s = none) ∨
  (∃ outer s inner, jsonLoads raw = some outer ∧
    resultBodyOpt outer = some (.str s) ∧ jsonLoads s = some inner ∧
    (summaryOpt inner = none ∨ summaryOpt inner = some (.str ("")) ∨
     ∃ w, summaryOpt inner = some w ∧ isStrJson w = false))

/-- An `LlmEnv` with post-processing disabled (the default configuration). -/
def noLlmEnv : LlmEnv :=
  { enablePost := false, providerId := "", providerById := fun _ => none,
    usingProvider := none, promptTemplate := "" }

/-- The doubly-encoded success body
`{"result":{"body":"{\"summary\":\"Hello world\"}"}}`. -/
def helloBody : String :=
  "\x7b\"result\":\x7b\"body\":\"\x7b\\\"summary\\\":\\\"Hello world\\\"\x7d\"\x7d\x7d"

/-- A success body whose inner summary carries surrounding whitespace. -/
def hiBody : String :=
  "\x7b\"result\":\x7b\"body\":\"\x7b\\\"summary\\\":\\\" Hi \\\"\x7d\"\x7d\x7d"

/-- The string stored in `result.body` of `hiBody`. -/
def hiInnerStr : String := "\x7b\"summary\":\" Hi \"\x7d"

/-- `jsonLoads hiBody`. -/
def hiOuterJson : Json := .obj [(("result"), .obj [(("body"), .str hiInnerStr)])]

/-- `jsonLoads hiInnerStr`. -/
def hiInnerJson : Json := .obj [(("summary"), .str (" Hi "))]

/-- The end-to-end fixture of the spec: default prefix, no restrictions, stub
fetcher returning `文章概要`. -/
def e2eEnv : MessageEnv :=
  { senderId := "user1", selfId := "bot", comps := [], enableSummary := true,
    groupId := "", blacklistGroups := [],
    messageStr := "看看这个 https://example.com/article 很不错",
    prefixStr := "📝内容摘要：", triggerKeywords := [], blacklistKeywords := [],
    summarize := fun _ => some ("文章概要") }

/-- The same fixture with an empty configured prefix. -/
def e2eEnvNoPrefix : MessageEnv :=
  { senderId := "user1", selfId := "bot", comps := [], enableSummary := true,
    groupId := "", blacklistGroups := [],
    messageStr := "看看这个 https://example.com/article 很不错",
    prefixStr := "", triggerKeywords := [], blacklistKeywords := [],
    summarize := fun _ => some ("文章概要") }

/-- A stub completion capability that always returns a fixed Chinese text. -/
def stubTranslator : String → Except Unit (Option String) :=
  fun _ => .ok (some ("这是中文文本。"))

/-! ## Helper lemmas -/

theorem strHas_of_isPrefixOf {pat cs : List Char}
    (h : pat.isPrefixOf cs = true) : strHas pat cs = true := by
  cases cs with
  | nil => cases pat <;> simp_all [strHas, List.isPrefixOf]
  | cons c t => simp [strHas, h]

theorem pyIn_left (p rest : String) : pyIn p (p ++ rest) = true := by
  have hd : (p ++ rest).data = p.data ++ rest.data := rfl
  unfold pyIn
  rw [hd]
  apply strHas_of_isPrefixOf
  rw [List.isPrefixOf_iff_prefix]
  exact List.prefix_append _ _

theorem rstripPunct_getLast {cs : List Char} {c : Char}
    (h : (rstripPunct cs).getLast? = some c) :
    trailingPunct.contains c = false := by
  unfold rstripPunct at h
  rw [List.getLast?_reverse] at h
  have h2 := List.head?_dropWhile_not
    (fun x => trailingPunct.contains x) cs.reverse
  rw [h] at h2
  exact h2

theorem getLast?_dropWhile_eq {p : Char → Bool} {l : List Char} {c : Char}
    (h : (l.dropWhile p).getLast? = some c) : l.getLast? = some c := by
  obtain ⟨t, ht⟩ := List.dropWhile_suffix p (l := l)
  rw [← ht, List.getLast?_append, h]
  rfl

/-! ## Claims -/

/-- **C1.** For every input text, every string in the sequence returned by
`_extract_urls` parses into a URL with a non-empty scheme and a non-empty
host (netloc); strings failing `_is_valid_url` are discarded. -/
theorem C1_extract_only_valid_urls (text u : String)
    (hu : u ∈ extractUrls text) :
    ∃ sch nl, urlparseSN u = some (sch, nl) ∧ sch ≠ "" ∧ nl ≠ "" := by
  unfold extractUrls at hu
  rcases h : rawUrlMatch text.data with _ | raw
  · rw [h] at hu
    simp at hu
  · rw [h] at hu
    by_cases hv : isValidUrl (String.mk (cleanUrl raw)) = true
    · simp only [hv, if_true, List.mem_singleton] at hu
      subst hu
      unfold isValidUrl at hv
      rcases hp : urlparseSN (String.mk (cleanUrl raw)) with _ | ⟨sch, nl⟩
      · rw [hp] at hv
        cases hv
      · rw [hp] at hv
        have := Bool.and_eq_true_iff.mp hv
        exact ⟨sch, nl, rfl, by simpa using this.1, by simpa using this.2⟩
    · simp only [Bool.not_eq_true] at hv
      simp [hv] at hu

/-- Witness for C1 at the end-to-end example text. -/
theorem C1_witness :
    ∃ sch nl, urlparseSN ("https://example.com/article") = some (sch, nl) ∧
      sch ≠ "" ∧ nl ≠ "" :=
  C1_extract_only_valid_urls ("看看这个 https://example.com/article 很不错")
    ("https://example.com/article") (by decide)

/-- **C10.** `_extract_urls` returns at most one URL — the one derived from
the first regex match — so later URLs in the same message are ignored. -/
theorem C10_at_most_one_url :
    (∀ text : String, (extractUrls text).length ≤ 1) ∧
    extractUrls ("see https://a.com and https://b.com") = ["https://a.com"] := by
  constructor
  · intro text
    unfold extractUrls
    rcases rawUrlMatch text.data with _ | raw
    · simp
    · simp only []
      split <;> simp
  · rfl

/-- **C6 counterexample.** In `"https://a.com/x.))y"` the set character `.`
appears immediately after the well-formed URL `https://a.com/x`, yet the
extractor returns `https://a.com/x.)`, whose final character `)` is in the
trailing-punctuation set (the parenthesis-balancing step trims past the
rstrip). -/
theorem C6_counterexample :
    isValidUrl ("https://a.com/x") = true ∧
    ("https://a.com/x.))y" : String) = "https://a.com/x" ++ ".))y" ∧
    trailingPunct.contains '.' = true ∧
    extractUrls ("https://a.com/x.))y") = ["https://a.com/x.)"] ∧
    trailingPunct.contains ')' = true ∧
    ("https://a.com/x.)" : String).data.getLast? = some ')' := by
  refine ⟨by decide, rfl, by decide, by decide, by decide, by decide⟩

/-- **C6 (amended).** Provided the parenthesis-balancing step leaves the
punctuation-trimmed match unchanged, an extracted URL never ends with a
character of the trailing-punctuation set.  (When balancing trims characters,
the returned URL may end with such a character — see the counterexample.) -/
theorem C6_amended_last_char_not_punct (text : String) (raw : List Char)
    (u : String) (hraw : rawUrlMatch text.data = some raw)
    (hbal : balanceParens (rstripPunct raw) = rstripPunct raw)
    (hu : u ∈ extractUrls text) :
    ∀ c, u.data.getLast? = some c → trailingPunct.contains c = false := by
  intro c hc
  unfold extractUrls at hu
  rw [hraw] at hu
  by_cases hv : isValidUrl (String.mk (cleanUrl raw)) = true
  · simp only [hv, if_true, List.mem_singleton] at hu
    subst hu
    have hdata : (String.mk (cleanUrl raw)).data = cleanUrl raw := rfl
    rw [hdata] at hc
    unfold cleanUrl at hc
    rw [hbal] at hc
    exact rstripPunct_getLast (getLast?_dropWhile_eq hc)
  · simp only [Bool.not_eq_true] at hv
    simp [hv] at hu

/-- Witness for the amended C6: balancing is a no-op on
`"see https://a.com/page. ok"` and the extracted URL ends in `e`. -/
theorem C6_witness : trailingPunct.contains ('e') = false :=
  C6_amended_last_char_not_punct ("see https://a.com/page. ok")
    (("https://a.com/page.").data) ("https://a.com/page")
    (by decide) rfl (by decide) 'e' rfl

/-- Invariant of the retry loop: starting at attempt `a` with `r` iterations
left (where `a + r = maxRetries`), at most `r` upstream calls are made and
the sleeps are exactly `2^a, 2^(a+1), …` for some consecutive run of length
at most `r - 1`. -/
theorem fetchLoop_calls_sleeps (post : String → String)
    (env : Nat → ServiceCall) (N : Nat) :
    ∀ r a, a + r = N →
      (fetchLoop post env N a r).calls ≤ r ∧
      ∃ k, k ≤ r - 1 ∧
        (fetchLoop post env N a r).sleeps =
          (List.range k).map (fun i => 2 ^ (a + i)) := by
  intro r
  induction r with
  | zero =>
    intro a _
    exact ⟨Nat.le_refl 0, 0, Nat.le_refl 0, by simp [fetchLoop]⟩
  | succ r ih =>
    intro a ha
    have ha' : (a + 1) + r = N := by omega
    obtain ⟨hcalls, k, hk, hsleeps⟩ := ih (a + 1) ha'
    unfold fetchLoop
    cases hres : serviceResult (env a) with
    | ok content =>
      by_cases hc : content = "" <;> simp [hc]
    | error e =>
      by_cases hlt : a < N - 1
      · have hr1 : 1 ≤ r := by omega
        refine ⟨?_, k + 1, by omega, ?_⟩
        · simp only [hlt, if_true]
          exact Nat.succ_le_succ hcalls
        simp only [hlt, if_true, hsleeps]
        rw [List.range_succ_eq_map]
        simp only [List.map_cons, List.map_map, Nat.add_zero]
        congr 1
        apply List.map_congr_left
        intro i _
        simp only [Function.comp]
        congr 1
        omega
      · have hr0 : r = 0 := by omega
        subst hr0
        refine ⟨by simp [hlt, fetchLoop], 0, Nat.le_refl 0, ?_⟩
        simp [hlt, fetchLoop]

/-- **C2 counterexample.** With three attempts all failing, the sleep
sequence is `[1, 2]` (that is `2^0, 2^1`), not the claimed `(0, 1, 2, 4, …)`
whose first two entries would be `[0, 1]`. -/
theorem C2_counterexample :
    (getUrlSummaryTrace (postprocessWithLlm noLlmEnv)
      (fun _ => ServiceCall.failCall) 3).sleeps = [1, 2] ∧
    ([1, 2] : List Nat) ≠ [0, 1] :=
  ⟨rfl, by decide⟩

/-- **C2 (amended).** With `max_retries = N ≥ 1`, `_get_url_summary` makes at
most `N` upstream calls and sleeps at most `N - 1` times, the `i`-th sleep
(0-indexed) lasting exactly `2^i` seconds — so the sleep sequence is
`(1, 2, 4, …)`, not `(0, 1, 2, 4, …)`. -/
theorem C2_amended_retry_bound (post : String → String)
    (env : Nat → ServiceCall) (N : Nat) (_hN : 1 ≤ N) :
    (getUrlSummaryTrace post env N).calls ≤ N ∧
    ∃ k, k ≤ N - 1 ∧
      (getUrlSummaryTrace post env N).sleeps =
        (List.range k).map (fun i => 2 ^ i) := by
  obtain ⟨h1, k, hk, hs⟩ := fetchLoop_calls_sleeps post env N N 0 (by omega)
  refine ⟨h1, k, hk, ?_⟩
  simpa using hs

/-- A response body with any of the spec's parse-shape violations makes
`_fetch_summary_from_service` raise (return `.error`). -/
theorem violation_errors (raw : String) (hviol : ParseShapeViolation raw) :
    ∃ e, fetchSummaryFromService 200 raw = .error e := by
  unfold fetchSummaryFromService
  rw [if_neg (by simp)]
  cases hj : jsonLoads raw with
  | none => exact ⟨.valueErr, rfl⟩
  | some outer =>
    show ∃ e, outerStage outer = .error e
    cases outer
    all_goals try exact ⟨PyErr.attrErr, rfl⟩
    rename_i fs
    show ∃ e, resultStage ((jlookup fs ("result")).getD (.obj [])) = .error e
    cases hgd : (jlookup fs ("result")).getD (.obj [])
    all_goals try exact ⟨PyErr.attrErr, rfl⟩
    rename_i rfs
    show ∃ e, bodyLookupStage (jlookup rfs ("body")) = .error e
    cases hbody : jlookup rfs ("body") with
    | none => exact ⟨.valueErr, rfl⟩
    | some bodyVal =>
      show ∃ e, bodyStage bodyVal = .error e
      unfold bodyStage
      by_cases hfal : pyFalsy bodyVal = true
      · exact ⟨.valueErr, by rw [if_pos hfal]⟩
      rw [if_neg hfal]
      cases bodyVal
      all_goals try exact ⟨PyErr.valueErr, rfl⟩
      rename_i s
      show ∃ e, innerLoadStage (jsonLoads s) = .error e
      cases hin : jsonLoads s with
      | none => exact ⟨.valueErr, rfl⟩
      | some inner =>
        show ∃ e, innerStage inner = .error e
        cases inner
        all_goals try exact ⟨PyErr.attrErr, rfl⟩
        rename_i ifs
        show ∃ e, summaryValStage (jlookup ifs ("summary")) = .error e
        cases hsum : jlookup ifs ("summary") with
        | none => exact ⟨.valueErr, rfl⟩
        | some sv =>
          show ∃ e, (if pyFalsy sv then Except.error PyErr.valueErr
            else match sv with
              | .str t => Except.ok (pyStrip t)
              | _ => Except.error PyErr.valueErr) = .error e
          by_cases hsf : pyFalsy sv = true
          · exact ⟨.valueErr, by rw [if_pos hsf]⟩
          rw [if_neg hsf]
          cases sv
          all_goals try exact ⟨PyErr.valueErr, rfl⟩
          rename_i w
          -- success path: contradict the violation hypothesis
          exfalso
          have hw : w ≠ "" := by
            intro hwe
            subst hwe
            simp [pyFalsy] at hsf
          have hs : s ≠ "" := by
            intro hse
            subst hse
            simp [pyFalsy] at hfal
          have hrb : resultBodyOpt (Json.obj fs) = some (.str s) := by
            simp [resultBodyOpt, hgd, hbody]
          have hso : summaryOpt (Json.obj ifs) = some (.str w) := by
            simp [summaryOpt, hsum]
          rcases hviol with h0 | ⟨o2, ho2, hbad⟩ | ⟨o2, s2, ho2, hs2, hbadin⟩ |
            ⟨o2, s2, in2, ho2, hs2, hin2, hbadsum⟩
          · rw [h0] at hj
            cases hj
          · have : o2 = Json.obj fs := Option.some.inj (ho2.symm.trans hj)
            subst this
            rcases hbad with hnone | ⟨v, hv, hvs⟩
            · rw [hnone] at hrb
              cases hrb
            · have : v = .str s := Option.some.inj (hv.symm.trans hrb)
              subst this
              simp [isStrJson] at hvs
          · have : o2 = Json.obj fs := Option.some.inj (ho2.symm.trans hj)
            subst this
            have : s2 = s := by
              have := Option.some.inj (hs2.symm.trans hrb)
              exact Json.str.inj this
            subst this
            rw [hbadin] at hin
            cases hin
          · have : o2 = Json.obj fs := Option.some.inj (ho2.symm.trans hj)
            subst this
            have : s2 = s := by
              have := Option.some.inj (hs2.symm.trans hrb)
              exact Json.str.inj this
            subst this
            have : in2 = Json.obj ifs := Option.some.inj (hin2.symm.trans hin)
            subst this
            rcases hbadsum with hnone | hempty | ⟨w2, hw2, hw2s⟩
            · rw [hnone] at hso
              cases hso
            · have := Option.some.inj (hempty.symm.trans hso)
              exact hw (Json.str.inj this).symm
            · have : w2 = .str w := Option.some.inj (hw2.symm.trans hso)
              subst this
              simp [isStrJson] at hw2s

/-- If every upstream call from attempt `a` on raises, the loop returns
`None` and makes exactly one call per remaining attempt. -/
theorem fetchLoop_all_fail (post : String → String) (env : Nat → ServiceCall)
    (N : Nat) :
    ∀ r a, (∀ i, i < r → ∃ e, serviceResult (env (a + i)) = .error e) →
      (fetchLoop post env N a r).result = none ∧
      (fetchLoop post env N a r).calls = r := by
  intro r
  induction r with
  | zero => intro a _; exact ⟨rfl, rfl⟩
  | succ r ih =>
    intro a hall
    obtain ⟨e, he⟩ := hall 0 (Nat.succ_pos r)
    rw [Nat.add_zero] at he
    have hrest := ih (a + 1) (fun i hi => by
      obtain ⟨e2, he2⟩ := hall (i + 1) (by omega)
      exact ⟨e2, by rw [show a + 1 + i = a + (i + 1) by omega]; exact he2⟩)
    unfold fetchLoop
    rw [he]
    by_cases hlt : a < N - 1 <;> simp [hlt, hrest.1, hrest.2]

/-- **C3.** Every parse-shape violation of the upstream response is a
retryable error: `_get_url_summary` retries it on every one of the
`max_retries` attempts, and when every attempt fails it returns `None` to the
caller rather than raising (the embedding is a total function into
`Option`). -/
theorem C3_parse_shape_retryable (post : String → String)
    (env : Nat → ServiceCall) (N : Nat)
    (h : ∀ i, i < N → ∃ raw, env i = .responds 200 raw ∧
      ParseShapeViolation raw) :
    (getUrlSummaryTrace post env N).result = none ∧
    (getUrlSummaryTrace post env N).calls = N := by
  apply fetchLoop_all_fail post env N N 0
  intro i hi
  obtain ⟨raw, henv, hviol⟩ := h i hi
  rw [Nat.zero_add, henv]
  show ∃ e, fetchSummaryFromService 200 raw = .error e
  exact violation_errors raw hviol

/-- Witness for C3 at `N = 2` with both responses carrying an invalid outer
body. -/
theorem C3_witness :
    (getUrlSummaryTrace (postprocessWithLlm noLlmEnv)
      (fun _ => ServiceCall.responds 200 ("not json")) 2).result = none ∧
    (getUrlSummaryTrace (postprocessWithLlm noLlmEnv)
      (fun _ => ServiceCall.responds 200 ("not json")) 2).calls = 2 :=
  C3_parse_shape_retryable (postprocessWithLlm noLlmEnv)
    (fun _ => ServiceCall.responds 200 ("not json")) 2
    (fun _ _ => ⟨"not json", rfl, Or.inl rfl⟩)

/-- Witness for the amended C2 at `N = 2` with all attempts failing. -/
theorem C2_witness :
    (getUrlSummaryTrace (postprocessWithLlm noLlmEnv)
      (fun _ => ServiceCall.failCall) 2).calls ≤ 2 ∧
    ∃ k, k ≤ 1 ∧
      (getUrlSummaryTrace (postprocessWithLlm noLlmEnv)
        (fun _ => ServiceCall.failCall) 2).sleeps =
        (List.range k).map (fun i => 2 ^ i) :=
  C2_amended_retry_bound (postprocessWithLlm noLlmEnv)
    (fun _ => ServiceCall.failCall) 2 (by omega)

/-- A decoded value with a `result.body` field is an object. -/
theorem resultBodyOpt_some {outer v : Json} (h : resultBodyOpt outer = some v) :
    ∃ fs, outer = Json.obj fs := by
  cases outer
  case obj fs => exact ⟨fs, rfl⟩
  all_goals simp [resultBodyOpt] at h

/-- A decoded value with a `summary` field is an object. -/
theorem summaryOpt_some {inner v : Json} (h : summaryOpt inner = some v) :
    ∃ ifs, inner = Json.obj ifs := by
  cases inner
  case obj ifs => exact ⟨ifs, rfl⟩
  all_goals simp [summaryOpt] at h

/-- **C4 counterexample.** The claim quantifies over 2xx responses, but
`_fetch_summary_from_service` raises `ValueError` for every status other
than exactly 200 (`if response.status != 200`): the 2xx status 201 with the
doubly-encoded example body yields an error, not `"Hello world"`. -/
theorem C4_counterexample :
    (200 ≤ 201 ∧ 201 < 300) ∧
    fetchSummaryFromService 201 helloBody = .error PyErr.valueErr ∧
    (Except.error PyErr.valueErr : Except PyErr String) ≠
      .ok ("Hello world") :=
  ⟨by decide, rfl, fun h => Except.noConfusion h⟩

/-- **C4 (amended).** For a response with status exactly 200 whose body is
the doubly-encoded JSON `{"result":{"body":"{\"summary\":\"Hello world\"}"}}`,
the fetch returns `"Hello world"` (any other status, 2xx included, raises and
is retried — see the counterexample); in general, on a 200 response with a
successful parse it returns the inner `summary` field with surrounding
whitespace trimmed. -/
theorem C4_fetch_returns_trimmed_summary :
    fetchSummaryFromService 200 helloBody = .ok ("Hello world") ∧
    (∀ raw outer s inner t, jsonLoads raw = some outer →
      resultBodyOpt outer = some (.str s) → jsonLoads s = some inner →
      summaryOpt inner = some (.str t) → t ≠ "" →
      fetchSummaryFromService 200 raw = .ok (pyStrip t)) := by
  constructor
  · rfl
  · intro raw outer s inner t h1 h2 h3 h4 ht
    obtain ⟨fs, rfl⟩ := resultBodyOpt_some h2
    obtain ⟨ifs, rfl⟩ := summaryOpt_some h4
    simp only [resultBodyOpt] at h2
    simp only [summaryOpt] at h4
    unfold fetchSummaryFromService
    rw [if_neg (by simp), h1]
    show outerStage (Json.obj fs) = .ok (pyStrip t)
    show resultStage ((jlookup fs ("result")).getD (.obj [])) = .ok (pyStrip t)
    cases hgd : (jlookup fs ("result")).getD (.obj [])
    all_goals rw [hgd] at h2
    all_goals try (simp at h2)
    rename_i rfs
    show bodyLookupStage (jlookup rfs ("body")) = .ok (pyStrip t)
    rw [h2]
    show bodyStage (.str s) = .ok (pyStrip t)
    have hs : s ≠ "" := by
      intro hse
      subst hse
      rw [show jsonLoads ("") = none from rfl] at h3
      cases h3
    unfold bodyStage
    rw [if_neg (by simp [pyFalsy, hs])]
    show innerLoadStage (jsonLoads s) = .ok (pyStrip t)
    rw [h3]
    show innerStage (Json.obj ifs) = .ok (pyStrip t)
    show summaryValStage (jlookup ifs ("summary")) = .ok (pyStrip t)
    rw [h4]
    show (if pyFalsy (.str t) then Except.error PyErr.valueErr
      else match Json.str t with
        | .str t => Except.ok (pyStrip t)
        | _ => Except.error PyErr.valueErr) = .ok (pyStrip t)
    rw [if_neg (by simp [pyFalsy, ht])]

/-- Witness for C4's general part: a summary `" Hi "` is trimmed to `"Hi"`. -/
theorem C4_witness : fetchSummaryFromService 200 hiBody = .ok (pyStrip (" Hi ")) :=
  C4_fetch_returns_trimmed_summary.2 hiBody hiOuterJson hiInnerStr hiInnerJson
    (" Hi ") rfl rfl rfl rfl (by decide)

/-- **C5 counterexample.**  With an empty configured prefix, a message equal
to a previously emitted summary output (which then has no prefix line)
contains the configured prefix as a (trivial) substring, yet
`_is_summary_message` does not skip it and `on_message` re-summarizes it. -/
theorem C5_counterexample :
    pyIn ("") ("https://example.com/a\n文章概要") = true ∧
    formatOutput ("") ("https://example.com/a") ("文章概要") =
      "https://example.com/a\n文章概要" ∧
    isSummaryMessage ("") ("https://example.com/a\n文章概要") = false ∧
    onMessage
      { senderId := "user1"
        selfId := "bot"
        comps := []
        enableSummary := true
        groupId := ""
        blacklistGroups := []
        messageStr := "https://example.com/a\n文章概要"
        prefixStr := ""
        triggerKeywords := []
        blacklistKeywords := []
        summarize := fun _ => some ("文章概要") } =
      ["https://example.com/a\n文章概要"] :=
  ⟨rfl, rfl, rfl, rfl⟩

/-- **C5 (amended).**  A message containing a *non-empty* configured prefix,
or either literal marker, is decided to be an existing summary and produces
no output; since an emitted output with a non-empty configured prefix
contains that prefix, such outputs are never re-summarized.  (With an empty
configured prefix the guard does not fire — see the counterexample.) -/
theorem C5_amended_summary_messages_skipped (prefixStr text : String)
    (h : (prefixStr ≠ "" ∧ pyIn prefixStr text = true) ∨
         pyIn ("📝内容摘要：") text = true ∨ pyIn ("内容摘要：") text = true) :
    isSummaryMessage prefixStr text = true ∧
    (∀ env : MessageEnv, env.prefixStr = prefixStr → env.messageStr = text →
      onMessage env = []) ∧
    (∀ url s, prefixStr ≠ "" →
      pyIn prefixStr (formatOutput prefixStr url s) = true) := by
  have hmark : isSummaryMessage prefixStr text = true := by
    unfold isSummaryMessage
    rcases h with ⟨hne, hin⟩ | hin | hin
    · simp only [List.any_cons, Bool.or_eq_true]
      exact Or.inl (by simp [hne, hin])
    · simp only [List.any_cons, Bool.or_eq_true]
      refine Or.inr (Or.inl ?_)
      simp [hin]
    · simp only [List.any_cons, Bool.or_eq_true]
      refine Or.inr (Or.inr (Or.inl ?_))
      simp [hin]
  refine ⟨hmark, ?_, ?_⟩
  · intro env hp hm
    unfold onMessage
    rw [hp, hm, hmark]
    split
    · rfl
    split
    · rfl
    split
    · rfl
    split
    · rfl
    split
    · rfl
    simp
  · intro url s hne
    unfold formatOutput
    rw [if_pos hne]
    show pyIn prefixStr (prefixStr ++ "\n" ++ joinLines [url, s]) = true
    rw [String.append_assoc]
    exact pyIn_left prefixStr ("\n" ++ joinLines [url, s])

/-- Witness for the amended C5: a message carrying the default prefix is
skipped by `on_message`. -/
theorem C5_witness :
    onMessage
      { senderId := "user1"
        selfId := "bot"
        comps := []
        enableSummary := true
        groupId := ""
        blacklistGroups := []
        messageStr := "📝内容摘要：\nhttps://example.com/a\n文章概要"
        prefixStr := "📝内容摘要："
        triggerKeywords := []
        blacklistKeywords := []
        summarize := fun _ => some ("文章概要") } = [] :=
  (C5_amended_summary_messages_skipped ("📝内容摘要：")
    ("📝内容摘要：\nhttps://example.com/a\n文章概要")
    (Or.inl ⟨by decide, by decide⟩)).2.1 _ rfl rfl

/-- **C7.**  `_postprocess_with_llm` never raises (it is a total function
here), and under each failure condition — stage disabled, no provider
resolvable, the completion call raising, or the capability returning no text
or only whitespace — it returns the input summary unchanged. -/
theorem C7_postprocess_failure_is_identity (env : LlmEnv) (summary : String)
    (h : env.enablePost = false ∨ resolveProvider env = none ∨
      (∃ p e, resolveProvider env = some p ∧
        p.textChat (buildPrompt (templateOf env) summary) SYSTEM_PROMPT =
          .error e) ∨
      (∃ p, resolveProvider env = some p ∧
        p.textChat (buildPrompt (templateOf env) summary) SYSTEM_PROMPT =
          .ok none) ∨
      (∃ p t, resolveProvider env = some p ∧
        p.textChat (buildPrompt (templateOf env) summary) SYSTEM_PROMPT =
          .ok (some t) ∧ pyStrip t = "")) :
    postprocessWithLlm env summary = summary := by
  unfold postprocessWithLlm
  rcases h with h | h | ⟨p, e, hp, hc⟩ | ⟨p, hp, hc⟩ | ⟨p, t, hp, hc, hw⟩
  · simp [h]
  · simp [h]
  · simp [hp, hc]
  · simp [hp, hc]
  · by_cases ht : t = "" <;> simp [hp, hc, hw, ht]

/-- Witness for C7 with the stage disabled. -/
theorem C7_witness : postprocessWithLlm noLlmEnv ("hello") = "hello" :=
  C7_postprocess_failure_is_identity noLlmEnv ("hello") (Or.inl rfl)

/-- **C8.**  When all gates pass, `on_message` emits, for each extracted
non-blacklisted URL whose fetch yields a non-empty summary, exactly the
prefix line (omitted when the configured prefix is empty), the URL and the
summary joined by newlines; on the spec's end-to-end example the output is
exactly `"📝内容摘要：\nhttps://example.com/article\n文章概要"`. -/
theorem C8_output_format :
    (∀ env : MessageEnv,
      env.senderId ≠ env.selfId →
      ¬(env.comps.any isFwdOrReply = true) →
      env.enableSummary = true →
      ¬(env.groupId ≠ "" ∧
        env.blacklistGroups.any (fun kw => pyIn kw env.groupId) = true) →
      env.messageStr ≠ "" →
      ¬(isSummaryMessage env.prefixStr env.messageStr = true) →
      ¬((!env.triggerKeywords.isEmpty) = true ∧
        (!(env.triggerKeywords.any fun k => pyIn k env.messageStr)) = true) →
      onMessage env = (extractUrls env.messageStr).filterMap fun url =>
        if env.blacklistKeywords.any (fun k => pyIn k url) then none
        else
          match env.summarize url with
          | none => none
          | some s =>
            if s = "" then none
            else some (formatOutput env.prefixStr url s)) ∧
    onMessage e2eEnv = ["📝内容摘要：\nhttps://example.com/article\n文章概要"] := by
  constructor
  · intro env h1 h2 h3 h4 h5 h6 h7
    unfold onMessage
    rw [if_neg h1, if_neg h2, if_neg (by simp [h3]), if_neg h4, if_neg h5,
      if_neg h6, if_neg h7]
  · rfl

/-- Witness for C8's general part at the empty-prefix fixture: the prefix
line is omitted. -/
theorem C8_witness :
    onMessage e2eEnvNoPrefix = ["https://example.com/article\n文章概要"] :=
  (C8_output_format.1 e2eEnvNoPrefix (by decide) (by decide) rfl (by decide)
    (by decide) (by decide) (by decide)).trans rfl

/-- **C9** (spec-modelled: the translate-if-needed pipeline variant is not
under `src/`).  With translation enabled, a summary without common-block
Chinese ideographs is sent through the injected capability with the
translation instruction and the (trimmed) returned text becomes the final
text; a summary containing such ideographs passes through unchanged and the
capability is never invoked. -/
theorem C9_translate_if_needed :
    (∀ (env : TranslateEnv) (cap : String → Except Unit (Option String))
        (s t : String),
      env.enableTranslation = true → hasChineseChar s = false →
      env.capability = some cap →
      cap (TRANSLATE_INSTRUCTION ++ s) = .ok (some t) → pyStrip t ≠ "" →
      translateIfNeeded env s = (pyStrip t, 1)) ∧
    (∀ (env : TranslateEnv) (s : String), env.enableTranslation = true →
      hasChineseChar s = true → translateIfNeeded env s = (s, 0)) := by
  constructor
  · intro env cap s t he hc hcap hres hne
    unfold translateIfNeeded
    simp [he, hc, hcap, hres, hne]
  · intro env s he hc
    unfold translateIfNeeded
    simp [he, hc]

/-- Witness for C9 on the spec's two examples. -/
theorem C9_witness :
    translateIfNeeded
      { enableTranslation := true, capability := some stubTranslator }
      ("This is English text.") = ("这是中文文本。", 1) ∧
    translateIfNeeded
      { enableTranslation := true, capability := some stubTranslator }
      ("已经是中文摘要") = ("已经是中文摘要", 0) :=
  ⟨C9_translate_if_needed.1 _ stubTranslator ("This is English text.")
      ("这是中文文本。") rfl (by decide) rfl rfl (by decide),
    C9_translate_if_needed.2 _ ("已经是中文摘要") rfl (by decide)⟩

end FetchSummary
